import Mathlib

/-!
Verification of the deliberatorium-agent repository: a shallow embedding of
its client/worker logic (reconnect backoff, agent action sanitization and
application, local-storage persistence, shape-metadata sanitization, and the
worker token route), with theorems settling the specification claims.
-/

namespace DeliberatoriumAgent

/-! ## Reconnect backoff (useAssemblyAiAgentNotecards.ts, ws.onclose)

The close handler of the socket opened by `connect(attempt)` computes
`nextAttempt = attempt + 1` and schedules `connect(nextAttempt)` after
`Math.min(1000 * 2 ** Math.min(nextAttempt, 5), 15000)` milliseconds. -/

/-- The reconnect delay scheduled when the socket of connection attempt
`attempt` closes while reconnection is still desired. Embeds
`Math.min(1000 * 2 ** Math.min(nextAttempt, 5), 15000)` with
`nextAttempt = attempt + 1`. -/
def reconnectDelay (attempt : Nat) : Nat :=
  min (1000 * 2 ^ (min (attempt + 1) 5)) 15000

/-! ## Concept-node sanitization (CreateConceptNodeActionUtil.sanitizeAction)

`helpers.ensureValueIsNumber` yields either a number or null; we embed its
result as an `Option ℚ`. The sanitizer sets
`w = Math.max(180, num(w) ?? 240)`, `h = Math.max(100, num(h) ?? 140)`,
`x = num(x) ?? 0`, `y = num(y) ?? 0`. -/

/-- Proposed numeric fields of a create-concept-node action, after
`ensureValueIsNumber` (so `none` means the proposed value was not numeric). -/
structure ConceptNodeProposal where
  w : Option ℚ
  h : Option ℚ
  x : Option ℚ
  y : Option ℚ

/-- Numeric fields of the action after `sanitizeAction`. -/
structure ConceptNodeSanitized where
  w : ℚ
  h : ℚ
  x : ℚ
  y : ℚ

/-- Embeds the numeric part of `CreateConceptNodeActionUtil.sanitizeAction`. -/
def sanitizeConceptNode (a : ConceptNodeProposal) : ConceptNodeSanitized where
  w := max 180 (a.w.getD 240)
  h := max 100 (a.h.getD 140)
  x := a.x.getD 0
  y := a.y.getD 0

end DeliberatoriumAgent

namespace DeliberatoriumAgent

/-! ## Reading persistence (storage.ts: loadReadings / saveReadings)

`saveReadings` stores `JSON.stringify(readings)`; `loadReadings` parses the
stored string and keeps only entries whose `id`, `title` and `content` are
all truthy (non-empty strings). JSON stringify-then-parse is the identity on
a typed list of reading records, so the stored blob of `saveReadings rs`
parses back to `rs`; a raw blob that is absent, unparseable or not an array
loads as `[]`. -/

/-- A reading document (storage.ts `ReadingDocument`). -/
structure ReadingDocument where
  id : String
  title : String
  content : String
  createdAt : Int
deriving DecidableEq

/-- The truthiness filter of `loadReadings`:
`item?.id && item?.title && item?.content`. -/
def readingKept (r : ReadingDocument) : Bool :=
  r.id != "" && r.title != "" && r.content != ""

/-- Result of `JSON.parse` on the stored readings blob: either a parse
failure / non-array value, or the typed list of reading records. -/
inductive ReadingsBlob where
  | malformed
  | list (items : List ReadingDocument)

/-- Embeds `loadReadings`; `none` is an absent stored blob. -/
def loadReadings : Option ReadingsBlob → List ReadingDocument
  | none => []
  | some .malformed => []
  | some (.list items) => items.filter readingKept

/-- Embeds `saveReadings`: the stored blob parses back to the saved list. -/
def saveReadings (readings : List ReadingDocument) : ReadingsBlob :=
  .list readings

/-! ## Reading creation and agent context
(storage.ts createReadingDocument, ReadingContextPartUtil.getPart)

`createReadingDocument` stores
`content.replace(/\s+/g, ' ').trim().slice(0, 18000)`;
`getPart` surfaces `reading.content.slice(0, 3500)`. Strings are embedded
as lists of characters. -/

/-- The JavaScript whitespace class `\s`, restricted to the ASCII whitespace
characters that occur in text files. -/
def jsIsWs (c : Char) : Bool :=
  c = ' ' || c = '\t' || c = '\n' || c = '\r'

/-- Worker for `collapseWs`: `prevWs` records whether the previous character
was part of a whitespace run already replaced by a single space. -/
def collapseGo (prevWs : Bool) : List Char → List Char
  | [] => []
  | c :: rest =>
    if jsIsWs c then
      if prevWs then collapseGo true rest else ' ' :: collapseGo true rest
    else c :: collapseGo false rest

/-- Embeds `content.replace(/\s+/g, ' ')`: every maximal whitespace run
becomes a single space. -/
def collapseWs (content : List Char) : List Char :=
  collapseGo false content

/-- Embeds `String.prototype.trim`: strips whitespace from both ends. -/
def trimWs (content : List Char) : List Char :=
  ((content.dropWhile jsIsWs).reverse.dropWhile jsIsWs).reverse

/-- storage.ts `MAX_READING_CHARS`. -/
def MAX_READING_CHARS : Nat := 18000

/-- The `content` field produced by `createReadingDocument`:
`content.replace(/\s+/g, ' ').trim().slice(0, MAX_READING_CHARS)`. -/
def normalizeReading (content : List Char) : List Char :=
  (trimWs (collapseWs content)).take MAX_READING_CHARS

/-- ReadingContextPartUtil `MAX_READING_CHARS`. -/
def MAX_CONTEXT_READING_CHARS : Nat := 3500

/-- The per-reading content surfaced by `ReadingContextPartUtil.getPart`:
`reading.content.slice(0, 3500)`. -/
def contextContent (stored : List Char) : List Char :=
  stored.take MAX_CONTEXT_READING_CHARS

/-! ## Worker token route (worker/routes/assemblyAiToken.ts)

The route reads `env.ASSEMBLYAI_API_KEY` (falsy when unset or empty), calls
the upstream AssemblyAI token endpoint, and answers with JSON. The upstream
call is embedded as a value describing the response the fetch produced:
`ok` is `tokenResponse.ok`, and `token`/`error` the optional fields of the
parsed JSON body. -/

/-- The worker environment bindings used by the route; `none` models an
unset `ASSEMBLYAI_API_KEY`. -/
structure WorkerEnv where
  assemblyAiApiKey : Option String

/-- The upstream AssemblyAI token response as the route observes it. -/
structure UpstreamTokenResponse where
  ok : Bool
  token : Option String
  error : Option String

/-- worker/routes/assemblyAiToken.ts `DEFAULT_TOKEN_DURATION_SECONDS`. -/
def DEFAULT_TOKEN_DURATION_SECONDS : Nat := 600

/-- The JSON responses the route can return: an `{ error }` body with an
HTTP status, or a `{ token, expiresInSeconds }` body (status 200). -/
inductive TokenRouteResponse where
  | errorResp (status : Nat) (message : String)
  | tokenResp (token : String) (expiresInSeconds : Nat)
deriving DecidableEq

/-- Embeds the `assemblyAiToken` route handler. JavaScript truthiness on
strings makes both the unset and the empty API key take the 500 branch, and
both a missing and an empty upstream `token` take the second 502 branch. -/
def assemblyAiToken (env : WorkerEnv) (upstream : UpstreamTokenResponse) :
    TokenRouteResponse :=
  if env.assemblyAiApiKey = none ∨ env.assemblyAiApiKey = some "" then
    .errorResp 500 "AssemblyAI key is not configured."
  else if upstream.ok = false then
    .errorResp 502 "Failed to get AssemblyAI token."
  else
    match upstream.token with
    | none => .errorResp 502 (upstream.error.getD "AssemblyAI token was empty.")
    | some t =>
      if t = "" then .errorResp 502 (upstream.error.getD "AssemblyAI token was empty.")
      else .tokenResp t DEFAULT_TOKEN_DURATION_SECONDS

/-! ## Shape-metadata sanitizer (shapeMeta.ts)

JavaScript runtime values are embedded as `JSValue`: `exotic s` stands for
any value that is neither a primitive, an array, nor a plain object (a
`Date`, a function, a class instance, ...), carrying its `String(value)`
rendering; `obj` stands for a plain object (`constructor === Object` or a
null prototype). -/

/-- A JavaScript runtime value as seen by the sanitizer. -/
inductive JSValue where
  | undef
  | jsNull
  | boolean (b : Bool)
  | number (q : ℚ)
  | str (s : String)
  | arr (items : List JSValue)
  | obj (entries : List (String × JSValue))
  | exotic (stringRep : String)

/-- shapeMeta.ts `isPlainObject`. -/
def isPlainObjectB : JSValue → Bool
  | .obj _ => true
  | _ => false

/-- Whether a value is `undefined` (the `item === undefined` test). -/
def isUndef : JSValue → Bool
  | .undef => true
  | _ => false

mutual

/-- Embeds shapeMeta.ts `toSerializableJsonValue`: `value == null` (which
also matches `undefined`) becomes `null`, primitives pass through, arrays
and plain objects recurse (object entries with `undefined` values are
skipped), and everything else becomes `String(value)`. -/
def toSerializableJsonValue : JSValue → JSValue
  | .undef => .jsNull
  | .jsNull => .jsNull
  | .boolean b => .boolean b
  | .number q => .number q
  | .str s => .str s
  | .arr items => .arr (serializeList items)
  | .obj entries => .obj (serializeEntries entries)
  | .exotic s => .str s

/-- `value.map((item) => toSerializableJsonValue(item))` on an array. -/
def serializeList : List JSValue → List JSValue
  | [] => []
  | v :: rest => toSerializableJsonValue v :: serializeList rest

/-- The entry loop of `toSerializableJsonValue` on a plain object:
entries whose value is `undefined` are dropped, the rest recurse. -/
def serializeEntries : List (String × JSValue) → List (String × JSValue)
  | [] => []
  | (k, v) :: rest =>
    if isUndef v then serializeEntries rest
    else (k, toSerializableJsonValue v) :: serializeEntries rest

end

/-- Embeds shapeMeta.ts `sanitizeShapeMeta`. -/
def sanitizeShapeMeta (meta : JSValue) : JSValue :=
  if isPlainObjectB meta then toSerializableJsonValue meta else .obj []

mutual

/-- A value is JSON-like when every reachable value is `null`, a boolean, a
number, a string, an array, or a plain object — never `undefined` and never
an exotic (non-serializable) value. -/
def isJsonLike : JSValue → Bool
  | .undef => false
  | .jsNull => true
  | .boolean _ => true
  | .number _ => true
  | .str _ => true
  | .arr items => listJsonLike items
  | .obj entries => entriesJsonLike entries
  | .exotic _ => false

/-- All array items are JSON-like. -/
def listJsonLike : List JSValue → Bool
  | [] => true
  | v :: rest => isJsonLike v && listJsonLike rest

/-- All object entry values are JSON-like. -/
def entriesJsonLike : List (String × JSValue) → Bool
  | [] => true
  | (_, v) :: rest => isJsonLike v && entriesJsonLike rest

end

/-! ## Relationship-edge action (CreateRelationshipEdgeActionUtil.applyAction)

The canvas editor is embedded as the two lookups `applyAction` uses:
`getShape` (by the prefixed shape id) and `getShapePageBounds` (on the
resolved shape); a shape-creation call is recorded as the geometric fields
of the arrow shape passed to `editor.createShape`. -/

/-- A 2D point/offset. -/
structure Vec where
  x : ℚ
  y : ℚ
deriving DecidableEq

/-- The page bounds of a shape, as used by `applyAction`: only the
bounding-box center is read. -/
structure PageBounds where
  center : Vec
deriving DecidableEq

/-- A shape stored in the canvas document, identified by its id. -/
structure CanvasShape where
  id : String
deriving DecidableEq

/-- The slice of the tldraw editor that `applyAction` reads. -/
structure CanvasEditor where
  getShape : String → Option CanvasShape
  getShapePageBounds : CanvasShape → Option PageBounds

/-- A create-relationship-edge action after sanitization. -/
structure RelationshipEdgeAction where
  complete : Bool
  fromShapeId : String
  toShapeId : String
  shapeId : Option String
  bend : ℚ
  label : Option String
  intent : Option String

/-- The geometric fields of the arrow shape passed to `editor.createShape`:
position `(x, y)` and the `props.start` / `props.end` offsets. -/
structure ArrowShapeCall where
  id : String
  x : ℚ
  y : ℚ
  propsStart : Vec
  propsEnd : Vec
  bend : ℚ
deriving DecidableEq

/-- The id of the created arrow:
`action.shapeId ? shape-prefixed : createShapeId()`. -/
def resolveEdgeShapeId (shapeId : Option String) (freshId : String) : String :=
  match shapeId with
  | some s => "shape:" ++ s
  | none => freshId

/-- Embeds `CreateRelationshipEdgeActionUtil.applyAction`: the list of
`createShape` calls it issues (`freshId` models `createShapeId()`). An
incomplete action, an unresolved endpoint shape, or missing page bounds
abort with no call; otherwise exactly one arrow is created at the
componentwise minimum of the two bounding-box centers, with `props.start`
and `props.end` the offsets to those centers. -/
def applyRelationshipEdge (editor : CanvasEditor) (action : RelationshipEdgeAction)
    (freshId : String) : List ArrowShapeCall :=
  if action.complete = false then []
  else
    match editor.getShape ("shape:" ++ action.fromShapeId),
        editor.getShape ("shape:" ++ action.toShapeId) with
    | some fromShape, some toShape =>
      match editor.getShapePageBounds fromShape,
          editor.getShapePageBounds toShape with
      | some fromBounds, some toBounds =>
        [⟨resolveEdgeShapeId action.shapeId freshId,
          min fromBounds.center.x toBounds.center.x,
          min fromBounds.center.y toBounds.center.y,
          ⟨fromBounds.center.x - min fromBounds.center.x toBounds.center.x,
            fromBounds.center.y - min fromBounds.center.y toBounds.center.y⟩,
          ⟨toBounds.center.x - min fromBounds.center.x toBounds.center.x,
            toBounds.center.y - min fromBounds.center.y toBounds.center.y⟩,
          action.bend⟩]
      | _, _ => []
    | _, _ => []

/-- A concrete editor holding two shapes `a` (center `(1, 2)`) and `b`
(center `(5, 7)`), used to witness the edge-action theorems. -/
def sampleEditor : CanvasEditor where
  getShape := fun shapeRef =>
    if shapeRef = "shape:a" then some ⟨"a"⟩
    else if shapeRef = "shape:b" then some ⟨"b"⟩
    else none
  getShapePageBounds := fun s =>
    if s.id = "a" then some ⟨⟨1, 2⟩⟩
    else if s.id = "b" then some ⟨⟨5, 7⟩⟩
    else none

/-- A complete create-relationship-edge action from `a` to `b`. -/
def sampleEdgeAction : RelationshipEdgeAction :=
  ⟨true, "a", "b", some "e1", 0, none, none⟩

/-! ## Turn deduplication (useAssemblyAiAgentNotecards.ts queueTurnAsNotecard)

A finalized turn message is processed against the hook's refs:
`processedTurnIdsRef` (a set of already-handled turn keys, embedded as a
list) and the stream of `agent.schedule` dispatches (recorded by turn key).
The fallback key built from `Date.now()` and a transcript slice is embedded
as the message's `fresh` field. -/

/-- The fields of an AssemblyAI turn message that `queueTurnAsNotecard`
reads. `id` is the optional turn id; `turnOrder` the optional `turn_order`;
`fresh` stands for the timestamp-based fallback key. -/
structure TurnMessage where
  id : Option String
  turnOrder : Option Int
  transcript : List Char
  fresh : String

/-- The turn key:
`turn.id ?? (typeof turn.turn_order === 'number' ? turn-order : fallback)`. -/
def turnKey (t : TurnMessage) : String :=
  match t.id with
  | some i => i
  | none =>
    match t.turnOrder with
    | some o => "turn-" ++ toString o
    | none => t.fresh

/-- The dedup state of the hook: the processed-id set and the dispatches
(`agent.schedule` calls) issued so far, by turn key. -/
structure NotecardState where
  processedTurnIds : List String
  dispatches : List String
deriving DecidableEq

/-- Embeds `queueTurnAsNotecard` on one finalized turn message: an empty
(trimmed) transcript returns early; a turn key already in the processed set
returns early; otherwise the key is marked processed and exactly one agent
dispatch is issued. -/
def queueTurnAsNotecard (s : NotecardState) (t : TurnMessage) : NotecardState :=
  if trimWs t.transcript = [] then s
  else if turnKey t ∈ s.processedTurnIds then s
  else ⟨turnKey t :: s.processedTurnIds, s.dispatches ++ [turnKey t]⟩

/-- The hook's processing of a sequence of finalized turn messages, starting
from the initial empty refs. -/
def runNotecards (ts : List TurnMessage) : NotecardState :=
  ts.foldl queueTurnAsNotecard ⟨[], []⟩

/-! ## Workspace persistence (storage.ts loadWorkspaceState)

The stored workspace blob is embedded as the outcome of `JSON.parse`:
absent (`none`), unparseable or lacking the two required arrays
(`malformed`), or a parsed value carrying typed folder/file entries (a
missing string field is the empty string, which the truthiness filters
drop). `Date.now()` is passed in as `now`. -/

/-- storage.ts `WorkspaceFolder`. -/
structure WorkspaceFolder where
  id : String
  name : String
  parentId : Option String
  createdAt : Int
deriving DecidableEq

/-- storage.ts `WorkspaceFile` (`ftype` embeds the `type` field). -/
structure WorkspaceFile where
  id : String
  name : String
  parentId : Option String
  ftype : String
  createdAt : Int
  canvasKey : String
  readingId : Option String
deriving DecidableEq

/-- storage.ts `WorkspaceState`. -/
structure WorkspaceState where
  folders : List WorkspaceFolder
  files : List WorkspaceFile
deriving DecidableEq

/-- storage.ts `DEFAULT_CORE_FOLDER_ID`. -/
def DEFAULT_CORE_FOLDER_ID : String := "core-workspaces"

/-- storage.ts `DEFAULT_READINGS_FOLDER_ID`. -/
def DEFAULT_READINGS_FOLDER_ID : String := "readings"

/-- storage.ts `DEFAULT_SKETCHES_FOLDER_ID`. -/
def DEFAULT_SKETCHES_FOLDER_ID : String := "sketches"

/-- The three default folders of `createDefaultWorkspaceState`, created at
time `now`. -/
def defaultFolders (now : Int) : List WorkspaceFolder :=
  [⟨DEFAULT_CORE_FOLDER_ID, "Core Workspaces", none, now⟩,
    ⟨DEFAULT_READINGS_FOLDER_ID, "Readings", none, now⟩,
    ⟨DEFAULT_SKETCHES_FOLDER_ID, "Sketches", none, now⟩]

/-- The two seed canvas files of `createDefaultWorkspaceState`. -/
def defaultFiles (now : Int) : List WorkspaceFile :=
  [⟨"weekly-prep", "Weekly Prep", some DEFAULT_CORE_FOLDER_ID, "canvas", now,
      "deliberatorium-weekly-prep", none⟩,
    ⟨"question-space", "Question Space", some DEFAULT_CORE_FOLDER_ID, "canvas",
      now, "deliberatorium-question-space", none⟩]

/-- Embeds `createDefaultWorkspaceState`. -/
def createDefaultWorkspaceState (now : Int) : WorkspaceState :=
  ⟨defaultFolders now, defaultFiles now⟩

/-- Result of `JSON.parse` on the stored workspace blob: `malformed` covers
a parse failure, a null result, or a value missing either required array. -/
inductive WorkspaceBlob where
  | malformed
  | parsed (ws : WorkspaceState)

/-- The folder truthiness filter of `loadWorkspaceState`:
`folder?.id && folder?.name`. -/
def folderKept (f : WorkspaceFolder) : Bool :=
  f.id != "" && f.name != ""

/-- The file truthiness filter of `loadWorkspaceState`:
`file?.id && file?.name && file?.canvasKey`. -/
def fileKept (f : WorkspaceFile) : Bool :=
  f.id != "" && f.name != "" && f.canvasKey != ""

/-- Embeds `loadWorkspaceState`: a missing or malformed blob yields the
default tree; otherwise the filtered entries are kept and each default
folder/file is pushed when its id is absent (`hasCore`, `hasReadingsFolder`,
`hasSketchesFolder`, `hasWeekly`, `hasQuestion`). -/
def loadWorkspaceState (blob : Option WorkspaceBlob) (now : Int) :
    WorkspaceState :=
  match blob with
  | none => createDefaultWorkspaceState now
  | some .malformed => createDefaultWorkspaceState now
  | some (.parsed parsed) =>
    let folders := parsed.folders.filter folderKept
    let files := parsed.files.filter fileKept
    let hasCore := folders.any (fun f => f.id == DEFAULT_CORE_FOLDER_ID)
    let hasReadingsFolder :=
      folders.any (fun f => f.id == DEFAULT_READINGS_FOLDER_ID)
    let hasSketchesFolder :=
      folders.any (fun f => f.id == DEFAULT_SKETCHES_FOLDER_ID)
    let hasWeekly := files.any (fun f => f.id == "weekly-prep")
    let hasQuestion := files.any (fun f => f.id == "question-space")
    ⟨folders
        ++ (if hasCore then []
          else [⟨DEFAULT_CORE_FOLDER_ID, "Core Workspaces", none, now⟩])
        ++ (if hasReadingsFolder then []
          else [⟨DEFAULT_READINGS_FOLDER_ID, "Readings", none, now⟩])
        ++ (if hasSketchesFolder then []
          else [⟨DEFAULT_SKETCHES_FOLDER_ID, "Sketches", none, now⟩]),
      files
        ++ (if hasWeekly then []
          else [⟨"weekly-prep", "Weekly Prep", some DEFAULT_CORE_FOLDER_ID,
            "canvas", now, "deliberatorium-weekly-prep", none⟩])
        ++ (if hasQuestion then []
          else [⟨"question-space", "Question Space",
            some DEFAULT_CORE_FOLDER_ID, "canvas", now,
            "deliberatorium-question-space", none⟩])⟩

/-- The spec's wording of the re-seeding step, for comparison with the
source embedding: keep the entries and append every default folder whose id
is missing, in the fixed order core, readings, sketches. -/
def reseedFoldersSpec (folders : List WorkspaceFolder) (now : Int) :
    List WorkspaceFolder :=
  folders ++ (defaultFolders now).filter
    (fun d => !(folders.any (fun f => f.id == d.id)))

/-- The spec's wording of the re-seeding step for files: keep the entries
and append every seed file whose id is missing. -/
def reseedFilesSpec (files : List WorkspaceFile) (now : Int) :
    List WorkspaceFile :=
  files ++ (defaultFiles now).filter
    (fun d => !(files.any (fun f => f.id == d.id)))

lemma collapseGo_true_replicate_space (n : Nat) :
    collapseGo true (List.replicate n ' ') = [] := by
  induction n with
  | zero => rfl
  | succ n ih => simp [List.replicate_succ, collapseGo, jsIsWs, ih]

lemma collapseGo_false_cons_space (rest : List Char) :
    collapseGo false (' ' :: rest) = ' ' :: collapseGo true rest := by
  simp [collapseGo, jsIsWs]

lemma collapseGo_replicate_a (b : Bool) (n : Nat) :
    collapseGo b (List.replicate n 'a') = List.replicate n 'a' := by
  induction n generalizing b with
  | zero => rfl
  | succ n ih =>
    simp only [List.replicate_succ, collapseGo]
    rw [if_neg (by decide)]
    rw [ih]

lemma dropWhile_ws_replicate_a (n : Nat) :
    List.dropWhile jsIsWs (List.replicate n 'a') = List.replicate n 'a' := by
  cases n with
  | zero => rfl
  | succ n =>
    simp only [List.replicate_succ, List.dropWhile_cons]
    rw [if_neg (by decide)]

lemma trimWs_replicate_a (n : Nat) :
    trimWs (List.replicate n 'a') = List.replicate n 'a' := by
  unfold trimWs
  rw [dropWhile_ws_replicate_a, List.reverse_replicate, dropWhile_ws_replicate_a,
    List.reverse_replicate]

/-- C1: the claim's formula `min(1000*2^a, 15000)`, indexed by the attempt
number `a` of the connection whose socket closed, fails already at `a = 0`:
the code schedules the first reconnect after 2000 ms, not 1000 ms. -/
theorem reconnectDelay_ne_claimed_at_zero :
    reconnectDelay 0 ≠ min (1000 * 2 ^ 0) 15000 := by
  decide

/-- C1 (amended): when the socket of connection attempt `a` closes while
reconnection is still desired, the delay before the next reconnect attempt
equals `min(1000 * 2^(a+1), 15000)` milliseconds; equivalently, the delay
scheduled before reconnect attempt `n = a + 1 ≥ 1` is `min(1000*2^n, 15000)`.
The inner `min(·, 5)` in the code never changes the value because the outer
cap already dominates from exponent 4 on. -/
theorem reconnectDelay_eq_capped_backoff (a : Nat) :
    reconnectDelay a = min (1000 * 2 ^ (a + 1)) 15000 := by
  unfold reconnectDelay
  rcases le_or_lt (a + 1) 5 with h | h
  · rw [min_eq_left h]
  · have h5 : min (a + 1) 5 = 5 := min_eq_right (by omega)
    rw [h5]
    have h64 : 2 ^ 6 ≤ 2 ^ (a + 1) := Nat.pow_le_pow_right (by omega) (by omega)
    have : 15000 ≤ 1000 * 2 ^ (a + 1) := by
      calc 15000 ≤ 1000 * 2 ^ 6 := by norm_num
        _ ≤ 1000 * 2 ^ (a + 1) := Nat.mul_le_mul_left 1000 h64
    rw [min_eq_right (by norm_num), min_eq_right this]

/-- C2: the claim that every sanitized concept node has `h ≥ 140` fails:
a proposed height of 120 is above the hard minimum 100, so the sanitizer
keeps it and the result has height 120 < 140. -/
theorem sanitizeConceptNode_height_not_clamped_to_140 :
    ¬ (140 ≤ (sanitizeConceptNode ⟨some 240, some 120, some 0, some 0⟩).h) := by
  unfold sanitizeConceptNode
  norm_num

/-- C2 (amended): after `sanitizeAction`, a proposed width below 180 is
clamped to 180 and a proposed height below 100 is clamped to 100 (140 is
only the default height when the proposal is not numeric); the sanitized
action always satisfies `w ≥ 180` and `h ≥ 100`. -/
theorem sanitizeConceptNode_min_dims (a : ConceptNodeProposal) :
    180 ≤ (sanitizeConceptNode a).w ∧ 100 ≤ (sanitizeConceptNode a).h ∧
      (∀ w : ℚ, a.w = some w → w < 180 → (sanitizeConceptNode a).w = 180) ∧
      (∀ h : ℚ, a.h = some h → h < 100 → (sanitizeConceptNode a).h = 100) ∧
      (a.h = none → (sanitizeConceptNode a).h = 140) := by
  refine ⟨le_max_left _ _, le_max_left _ _, ?_, ?_, ?_⟩
  · intro w hw hlt
    simp only [sanitizeConceptNode, hw, Option.getD_some]
    exact max_eq_left hlt.le
  · intro h hh hlt
    simp only [sanitizeConceptNode, hh, Option.getD_some]
    exact max_eq_left hlt.le
  · intro hnone
    simp only [sanitizeConceptNode, hnone, Option.getD_none]
    norm_num

/-- C2 witness: the amended theorem applied to the concrete proposal
`(w = 50, h = 60, x = 0, y = 0)`: both dimensions are clamped. -/
theorem sanitizeConceptNode_min_dims_witness :
    (sanitizeConceptNode ⟨some 50, some 60, some 0, some 0⟩).w = 180 ∧
      (sanitizeConceptNode ⟨some 50, some 60, some 0, some 0⟩).h = 100 :=
  ⟨(sanitizeConceptNode_min_dims ⟨some 50, some 60, some 0, some 0⟩).2.2.1 50 rfl
      (by norm_num),
    (sanitizeConceptNode_min_dims ⟨some 50, some 60, some 0, some 0⟩).2.2.2.1 60 rfl
      (by norm_num)⟩

/-- C5: the claim that an input longer than 18,000 characters is stored with
length exactly 18,000 fails: `createReadingDocument` collapses and trims
whitespace before slicing, so 18,001 spaces (length > 18,000) normalize to
the empty string (length 0, not 18,000). -/
theorem createReadingDocument_not_exact_truncation :
    18000 < (List.replicate 18001 ' ').length ∧
      (normalizeReading (List.replicate 18001 ' ')).length ≠ 18000 := by
  constructor
  · rw [List.length_replicate]
    omega
  · have hc : collapseWs (List.replicate 18001 ' ') = [' '] := by
      unfold collapseWs
      rw [show (18001 : Nat) = 18000 + 1 by norm_num, List.replicate_succ,
        collapseGo_false_cons_space, collapseGo_true_replicate_space]
    have ht : trimWs [' '] = [] := by decide
    rw [normalizeReading, hc, ht]
    simp [MAX_READING_CHARS]

/-- C5 (amended): the stored reading content always has length at most
18,000 characters, and when the whitespace-normalized (collapsed, trimmed)
input has at least 18,000 characters it is truncated to exactly 18,000; the
content surfaced as agent context has length at most 3,500 and is a prefix
of the stored content. -/
theorem reading_content_caps (content stored : List Char) :
    (normalizeReading content).length ≤ 18000 ∧
      (18000 ≤ (trimWs (collapseWs content)).length →
        (normalizeReading content).length = 18000) ∧
      (contextContent stored).length ≤ 3500 ∧
      ∃ rest, stored = contextContent stored ++ rest := by
  refine ⟨?_, ?_, ?_, ?_⟩
  · rw [normalizeReading, List.length_take]
    exact min_le_left _ _
  · intro h
    rw [normalizeReading, List.length_take]
    exact min_eq_left h
  · rw [contextContent, List.length_take]
    exact min_le_left _ _
  · exact ⟨stored.drop MAX_CONTEXT_READING_CHARS, (List.take_append_drop _ _).symm⟩

/-- C5 witness: 18,000 letters `a` normalize to themselves, so the stored
content has length exactly 18,000. -/
theorem reading_content_caps_witness :
    (normalizeReading (List.replicate 18000 'a')).length = 18000 :=
  (reading_content_caps (List.replicate 18000 'a') []).2.1
    (by
      rw [collapseWs, collapseGo_replicate_a, trimWs_replicate_a,
        List.length_replicate])

/-- C10: loading after saving returns exactly the saved entries whose `id`,
`title` and `content` are all non-empty, in order; the round trip is the
identity precisely when every entry passes that filter; in particular a
reading with empty content is silently dropped. -/
theorem loadReadings_saveReadings (rs : List ReadingDocument) :
    loadReadings (some (saveReadings rs)) = rs.filter readingKept ∧
      (loadReadings (some (saveReadings rs)) = rs ↔
        ∀ r ∈ rs, readingKept r = true) ∧
      loadReadings (some (saveReadings [⟨"r1", "Title", "", 0⟩])) = [] := by
  refine ⟨rfl, ?_, by decide⟩
  show rs.filter readingKept = rs ↔ _
  exact List.filter_eq_self

/-- C10 witness: a concrete two-element list whose second entry has empty
content round-trips to just the first entry. -/
theorem loadReadings_saveReadings_witness :
    loadReadings (some (saveReadings
        [⟨"r1", "Title", "Body", 0⟩, ⟨"r2", "Other", "", 1⟩])) =
      [⟨"r1", "Title", "Body", 0⟩] := by
  rw [(loadReadings_saveReadings
    [⟨"r1", "Title", "Body", 0⟩, ⟨"r2", "Other", "", 1⟩]).1]
  decide

/-- C8: every response of the token route is exactly one of
`{ error }` with status 500 (API key unset or empty), `{ error }` with
status 502 (upstream failed, or its token missing or empty), or
`{ token, expiresInSeconds }` with the fixed duration 600. -/
theorem assemblyAiToken_responses (env : WorkerEnv) (u : UpstreamTokenResponse) :
    ((env.assemblyAiApiKey = none ∨ env.assemblyAiApiKey = some "") →
        assemblyAiToken env u =
          .errorResp 500 "AssemblyAI key is not configured.") ∧
      (∀ s m, assemblyAiToken env u = .errorResp s m → s = 500 ∨ s = 502) ∧
      (∀ t e, assemblyAiToken env u = .tokenResp t e →
        e = 600 ∧ u.ok = true ∧ u.token = some t ∧ t ≠ "") ∧
      (¬ (env.assemblyAiApiKey = none ∨ env.assemblyAiApiKey = some "") →
        ((u.ok = false ∨ u.token = none ∨ u.token = some "") →
          ∃ m, assemblyAiToken env u = .errorResp 502 m) ∧
        (∀ t, u.ok = true → u.token = some t → t ≠ "" →
          assemblyAiToken env u = .tokenResp t 600)) := by
  obtain ⟨ok, token, err⟩ := u
  by_cases hk : env.assemblyAiApiKey = none ∨ env.assemblyAiApiKey = some ""
  · refine ⟨fun _ => by simp [assemblyAiToken, hk], ?_, ?_, fun h => absurd hk h⟩
    · intro s m h
      simp only [assemblyAiToken, if_pos hk] at h
      cases h
      exact Or.inl rfl
    · intro t e h
      simp only [assemblyAiToken, if_pos hk] at h
      cases h
  · have hfail : ok = false →
        assemblyAiToken env ⟨ok, token, err⟩ =
          .errorResp 502 "Failed to get AssemblyAI token." := by
      intro h
      simp [assemblyAiToken, hk, h]
    have hnone : ok = true → token = none →
        assemblyAiToken env ⟨ok, token, err⟩ =
          .errorResp 502 (err.getD "AssemblyAI token was empty.") := by
      intro h1 h2
      simp [assemblyAiToken, hk, h1, h2]
    have hempty : ok = true → token = some "" →
        assemblyAiToken env ⟨ok, token, err⟩ =
          .errorResp 502 (err.getD "AssemblyAI token was empty.") := by
      intro h1 h2
      simp [assemblyAiToken, hk, h1, h2]
    have hgood : ∀ t, ok = true → token = some t → t ≠ "" →
        assemblyAiToken env ⟨ok, token, err⟩ = .tokenResp t 600 := by
      intro t h1 h2 ht
      simp [assemblyAiToken, hk, h1, h2, ht, DEFAULT_TOKEN_DURATION_SECONDS]
    refine ⟨fun h => absurd h hk, ?_, ?_, fun _ => ⟨?_, hgood⟩⟩
    · intro s m h
      cases ok
      · rw [hfail rfl] at h
        cases h
        exact Or.inr rfl
      · cases token with
        | none =>
          rw [hnone rfl rfl] at h
          cases h
          exact Or.inr rfl
        | some t =>
          by_cases ht : t = ""
          · subst ht
            rw [hempty rfl rfl] at h
            cases h
            exact Or.inr rfl
          · rw [hgood t rfl rfl ht] at h
            cases h
    · intro t e h
      cases ok
      · rw [hfail rfl] at h
        cases h
      · cases token with
        | none =>
          rw [hnone rfl rfl] at h
          cases h
        | some t' =>
          by_cases ht : t' = ""
          · subst ht
            rw [hempty rfl rfl] at h
            cases h
          · rw [hgood t' rfl rfl ht] at h
            cases h
            exact ⟨rfl, rfl, rfl, ht⟩
    · rintro (hok | htok | htok)
      · exact ⟨_, hfail hok⟩
      · cases ok
        · exact ⟨_, hfail rfl⟩
        · exact ⟨_, hnone rfl htok⟩
      · cases ok
        · exact ⟨_, hfail rfl⟩
        · exact ⟨_, hempty rfl htok⟩

/-- C7: the edge action issues a shape-creation call only when it is
complete and both endpoint shapes and their page bounds resolve; in every
other case it aborts with no call, leaving the document unchanged; and it
never issues more than one call. -/
theorem applyRelationshipEdge_guarded (editor : CanvasEditor)
    (action : RelationshipEdgeAction) (freshId : String) :
    (applyRelationshipEdge editor action freshId).length ≤ 1 ∧
      ((applyRelationshipEdge editor action freshId).length = 1 ↔
        action.complete = true ∧
          ∃ fs ts fb tb,
            editor.getShape ("shape:" ++ action.fromShapeId) = some fs ∧
            editor.getShape ("shape:" ++ action.toShapeId) = some ts ∧
            editor.getShapePageBounds fs = some fb ∧
            editor.getShapePageBounds ts = some tb) ∧
      (¬ (action.complete = true ∧
          ∃ fs ts fb tb,
            editor.getShape ("shape:" ++ action.fromShapeId) = some fs ∧
            editor.getShape ("shape:" ++ action.toShapeId) = some ts ∧
            editor.getShapePageBounds fs = some fb ∧
            editor.getShapePageBounds ts = some tb) →
        applyRelationshipEdge editor action freshId = []) := by
  have main : (applyRelationshipEdge editor action freshId).length ≤ 1 ∧
      ((applyRelationshipEdge editor action freshId).length = 1 ↔
        action.complete = true ∧
          ∃ fs ts fb tb,
            editor.getShape ("shape:" ++ action.fromShapeId) = some fs ∧
            editor.getShape ("shape:" ++ action.toShapeId) = some ts ∧
            editor.getShapePageBounds fs = some fb ∧
            editor.getShapePageBounds ts = some tb) := by
    cases hc : action.complete with
    | false => simp [applyRelationshipEdge, hc]
    | true =>
      cases hf : editor.getShape ("shape:" ++ action.fromShapeId) with
      | none => simp [applyRelationshipEdge, hc, hf]
      | some fs =>
        cases ht : editor.getShape ("shape:" ++ action.toShapeId) with
        | none => simp [applyRelationshipEdge, hc, hf, ht]
        | some ts =>
          cases hfb : editor.getShapePageBounds fs with
          | none => simp [applyRelationshipEdge, hc, hf, ht, hfb]
          | some fb =>
            cases htb : editor.getShapePageBounds ts with
            | none => simp [applyRelationshipEdge, hc, hf, ht, hfb, htb]
            | some tb => simp [applyRelationshipEdge, hc, hf, ht, hfb, htb]
  refine ⟨main.1, main.2, fun h => ?_⟩
  have hne : (applyRelationshipEdge editor action freshId).length ≠ 1 :=
    fun h1 => h (main.2.mp h1)
  have hlen : (applyRelationshipEdge editor action freshId).length = 0 := by
    have := main.1
    omega
  exact List.length_eq_zero.mp hlen

/-- C7 witness: an incomplete action issues no call, while the complete
sample action with both endpoints resolved issues exactly one. -/
theorem applyRelationshipEdge_guarded_witness :
    applyRelationshipEdge sampleEditor ⟨false, "a", "b", none, 0, none, none⟩
        "fresh" = [] ∧
      (applyRelationshipEdge sampleEditor sampleEdgeAction "fresh").length = 1 :=
  ⟨(applyRelationshipEdge_guarded sampleEditor
        ⟨false, "a", "b", none, 0, none, none⟩ "fresh").2.2
      (by rintro ⟨h, -⟩; cases h),
    (applyRelationshipEdge_guarded sampleEditor sampleEdgeAction "fresh").2.1.mpr
      ⟨rfl, ⟨"a"⟩, ⟨"b"⟩, ⟨⟨1, 2⟩⟩, ⟨⟨5, 7⟩⟩, by decide, by decide, by decide,
        by decide⟩⟩

/-- C9: when a complete edge action resolves both endpoint shapes and their
bounds, the single created arrow sits at the componentwise minimum of the
two bounding-box centers, its `props.start` / `props.end` offsets are
nonnegative, and adding them to the shape position recovers the source and
target centers exactly. -/
theorem applyRelationshipEdge_geometry (editor : CanvasEditor)
    (action : RelationshipEdgeAction) (freshId : String)
    (fs ts : CanvasShape) (fb tb : PageBounds)
    (hc : action.complete = true)
    (hf : editor.getShape ("shape:" ++ action.fromShapeId) = some fs)
    (ht : editor.getShape ("shape:" ++ action.toShapeId) = some ts)
    (hfb : editor.getShapePageBounds fs = some fb)
    (htb : editor.getShapePageBounds ts = some tb) :
    ∃ call, applyRelationshipEdge editor action freshId = [call] ∧
      call.x = min fb.center.x tb.center.x ∧
      call.y = min fb.center.y tb.center.y ∧
      call.x + call.propsStart.x = fb.center.x ∧
      call.y + call.propsStart.y = fb.center.y ∧
      call.x + call.propsEnd.x = tb.center.x ∧
      call.y + call.propsEnd.y = tb.center.y ∧
      0 ≤ call.propsStart.x ∧ 0 ≤ call.propsStart.y ∧
      0 ≤ call.propsEnd.x ∧ 0 ≤ call.propsEnd.y := by
  refine ⟨⟨resolveEdgeShapeId action.shapeId freshId,
    min fb.center.x tb.center.x,
    min fb.center.y tb.center.y,
    ⟨fb.center.x - min fb.center.x tb.center.x,
      fb.center.y - min fb.center.y tb.center.y⟩,
    ⟨tb.center.x - min fb.center.x tb.center.x,
      tb.center.y - min fb.center.y tb.center.y⟩,
    action.bend⟩, ?_, rfl, rfl, by ring, by ring, by ring, by ring,
    sub_nonneg.mpr (min_le_left _ _), sub_nonneg.mpr (min_le_left _ _),
    sub_nonneg.mpr (min_le_right _ _), sub_nonneg.mpr (min_le_right _ _)⟩
  simp [applyRelationshipEdge, hc, hf, ht, hfb, htb]

/-- C9 witness: for centers `(1, 2)` and `(5, 7)` the arrow is created at
`(1, 2)` and its offsets recover both centers. -/
theorem applyRelationshipEdge_geometry_witness :
    ∃ call, applyRelationshipEdge sampleEditor sampleEdgeAction "fresh" =
        [call] ∧
      call.x = 1 ∧ call.y = 2 ∧
      call.x + call.propsEnd.x = 5 ∧ call.y + call.propsEnd.y = 7 := by
  obtain ⟨call, hcall, hx, hy, _, _, hex, hey, _⟩ :=
    applyRelationshipEdge_geometry sampleEditor sampleEdgeAction "fresh"
      ⟨"a"⟩ ⟨"b"⟩ ⟨⟨1, 2⟩⟩ ⟨⟨5, 7⟩⟩ rfl (by decide) (by decide) (by decide)
      (by decide)
  refine ⟨call, hcall, ?_, ?_, ?_, ?_⟩
  · rw [hx]
    norm_num
  · rw [hy]
    norm_num
  · rw [hex]
  · rw [hey]

lemma queueTurn_inv_step (s : NotecardState) (t : TurnMessage) (k : String)
    (hcount : s.dispatches.count k ≤ 1)
    (hmem : k ∈ s.dispatches → k ∈ s.processedTurnIds) :
    (queueTurnAsNotecard s t).dispatches.count k ≤ 1 ∧
      (k ∈ (queueTurnAsNotecard s t).dispatches →
        k ∈ (queueTurnAsNotecard s t).processedTurnIds) := by
  unfold queueTurnAsNotecard
  by_cases h1 : trimWs t.transcript = []
  · rw [if_pos h1]
    exact ⟨hcount, hmem⟩
  · rw [if_neg h1]
    by_cases h2 : turnKey t ∈ s.processedTurnIds
    · rw [if_pos h2]
      exact ⟨hcount, hmem⟩
    · rw [if_neg h2]
      constructor
      · simp only [List.count_append]
        by_cases hk : k = turnKey t
        · have hnd : k ∉ s.dispatches := fun hd => h2 (hk ▸ hmem hd)
          rw [List.count_eq_zero.mpr hnd]
          have hle : List.count k [turnKey t] ≤ 1 := by
            simpa using List.count_le_length k [turnKey t]
          omega
        · have h0 : List.count k [turnKey t] = 0 :=
            List.count_eq_zero.mpr (by simp [hk])
          omega
      · intro hin
        rcases List.mem_append.mp hin with hd | hone
        · exact List.mem_cons_of_mem _ (hmem hd)
        · rw [List.mem_singleton.mp hone]
          exact List.mem_cons_self _ _

lemma runNotecards_inv (ts : List TurnMessage) (s : NotecardState) (k : String)
    (hcount : s.dispatches.count k ≤ 1)
    (hmem : k ∈ s.dispatches → k ∈ s.processedTurnIds) :
    (ts.foldl queueTurnAsNotecard s).dispatches.count k ≤ 1 ∧
      (k ∈ (ts.foldl queueTurnAsNotecard s).dispatches →
        k ∈ (ts.foldl queueTurnAsNotecard s).processedTurnIds) := by
  induction ts generalizing s with
  | nil => exact ⟨hcount, hmem⟩
  | cons t rest ih =>
    simp only [List.foldl_cons]
    obtain ⟨h1, h2⟩ := queueTurn_inv_step s t k hcount hmem
    exact ih _ h1 h2

lemma queueTurn_frozen_step (s : NotecardState) (t : TurnMessage) (k : String)
    (hk : k ∈ s.processedTurnIds) :
    k ∈ (queueTurnAsNotecard s t).processedTurnIds ∧
      (queueTurnAsNotecard s t).dispatches.count k = s.dispatches.count k := by
  unfold queueTurnAsNotecard
  by_cases h1 : trimWs t.transcript = []
  · rw [if_pos h1]
    exact ⟨hk, rfl⟩
  · rw [if_neg h1]
    by_cases h2 : turnKey t ∈ s.processedTurnIds
    · rw [if_pos h2]
      exact ⟨hk, rfl⟩
    · rw [if_neg h2]
      have hne : k ≠ turnKey t := fun h => h2 (h ▸ hk)
      constructor
      · exact List.mem_cons_of_mem _ hk
      · simp only [List.count_append]
        have h0 : List.count k [turnKey t] = 0 :=
          List.count_eq_zero.mpr (by simp [hne])
        omega

lemma runNotecards_frozen (ts : List TurnMessage) (s : NotecardState)
    (k : String) (hk : k ∈ s.processedTurnIds) :
    k ∈ (ts.foldl queueTurnAsNotecard s).processedTurnIds ∧
      (ts.foldl queueTurnAsNotecard s).dispatches.count k =
        s.dispatches.count k := by
  induction ts generalizing s with
  | nil => exact ⟨hk, rfl⟩
  | cons t rest ih =>
    simp only [List.foldl_cons]
    obtain ⟨h1, h2⟩ := queueTurn_frozen_step s t k hk
    obtain ⟨h3, h4⟩ := ih _ h1
    exact ⟨h3, h4.trans h2⟩

/-- C3: over any sequence of finalized turn messages, at most one agent
dispatch is ever issued per turn key — in particular two turns carrying the
same id dispatch at most once in total — and once a turn key is in the
processed set after some prefix, the remaining messages add no dispatch for
that key. -/
theorem queueTurnAsNotecard_dedup (ts ts' : List TurnMessage) (key : String) :
    (runNotecards (ts ++ ts')).dispatches.count key ≤ 1 ∧
      (key ∈ (runNotecards ts).processedTurnIds →
        (runNotecards (ts ++ ts')).dispatches.count key =
          (runNotecards ts).dispatches.count key) := by
  constructor
  · exact (runNotecards_inv (ts ++ ts') ⟨[], []⟩ key (by simp) (by simp)).1
  · intro hk
    show ((ts ++ ts').foldl queueTurnAsNotecard ⟨[], []⟩).dispatches.count key = _
    rw [List.foldl_append]
    exact (runNotecards_frozen ts' (ts.foldl queueTurnAsNotecard ⟨[], []⟩)
      key hk).2

/-- C3 witness: two turns with the same id `x` and non-empty transcripts:
after the first is processed, the second changes nothing, so the dispatch
count for `x` stays 1. -/
theorem queueTurnAsNotecard_dedup_witness :
    (runNotecards ([⟨some "x", none, ['h', 'i'], "f1"⟩] ++
        [⟨some "x", none, ['y', 'o'], "f2"⟩])).dispatches.count "x" =
      (runNotecards [⟨some "x", none, ['h', 'i'], "f1"⟩]).dispatches.count "x" :=
  (queueTurnAsNotecard_dedup [⟨some "x", none, ['h', 'i'], "f1"⟩]
      [⟨some "x", none, ['y', 'o'], "f2"⟩] "x").2 (by decide)

set_option maxHeartbeats 2000000 in
lemma loadWorkspaceState_parsed_eq_spec (ws : WorkspaceState) (now : Int) :
    loadWorkspaceState (some (.parsed ws)) now =
      ⟨reseedFoldersSpec (ws.folders.filter folderKept) now,
        reseedFilesSpec (ws.files.filter fileKept) now⟩ := by
  simp only [loadWorkspaceState, reseedFoldersSpec, reseedFilesSpec,
    defaultFolders, defaultFiles]
  by_cases h1 : (ws.folders.filter folderKept).any
      (fun f => f.id == DEFAULT_CORE_FOLDER_ID) = true <;>
    by_cases h2 : (ws.folders.filter folderKept).any
      (fun f => f.id == DEFAULT_READINGS_FOLDER_ID) = true <;>
    by_cases h3 : (ws.folders.filter folderKept).any
      (fun f => f.id == DEFAULT_SKETCHES_FOLDER_ID) = true <;>
    by_cases h4 : (ws.files.filter fileKept).any
      (fun f => f.id == "weekly-prep") = true <;>
    by_cases h5 : (ws.files.filter fileKept).any
      (fun f => f.id == "question-space") = true <;>
    simp only [List.filter_cons, List.filter_nil, h1, h2, h3, h4, h5,
      eq_self_iff_true, Bool.not_true, Bool.not_false, if_true, if_false] <;>
    simp [h1, h2, h3, h4, h5, List.append_assoc]

lemma loadWorkspaceState_folderKept (blob : Option WorkspaceBlob) (now : Int) :
    ∀ f ∈ (loadWorkspaceState blob now).folders, folderKept f = true := by
  cases blob with
  | none =>
    intro f hf
    simp only [loadWorkspaceState, createDefaultWorkspaceState, defaultFolders,
      List.mem_cons, List.mem_singleton, List.not_mem_nil, or_false] at hf
    rcases hf with h | h | h <;> subst h <;> rfl
  | some b =>
    cases b with
    | malformed =>
      intro f hf
      simp only [loadWorkspaceState, createDefaultWorkspaceState,
        defaultFolders, List.mem_cons, List.mem_singleton, List.not_mem_nil,
        or_false] at hf
      rcases hf with h | h | h <;> subst h <;> rfl
    | parsed ws =>
      intro f hf
      rw [loadWorkspaceState_parsed_eq_spec] at hf
      simp only [reseedFoldersSpec, List.mem_append] at hf
      rcases hf with hf | hf
      · exact List.of_mem_filter hf
      · have hmem := List.mem_of_mem_filter hf
        simp only [defaultFolders, List.mem_cons, List.mem_singleton,
          List.not_mem_nil, or_false] at hmem
        rcases hmem with h | h | h <;> subst h <;> rfl

lemma loadWorkspaceState_fileKept (blob : Option WorkspaceBlob) (now : Int) :
    ∀ f ∈ (loadWorkspaceState blob now).files, fileKept f = true := by
  cases blob with
  | none =>
    intro f hf
    simp only [loadWorkspaceState, createDefaultWorkspaceState, defaultFiles,
      List.mem_cons, List.mem_singleton, List.not_mem_nil, or_false] at hf
    rcases hf with h | h <;> subst h <;> rfl
  | some b =>
    cases b with
    | malformed =>
      intro f hf
      simp only [loadWorkspaceState, createDefaultWorkspaceState,
        defaultFiles, List.mem_cons, List.mem_singleton, List.not_mem_nil,
        or_false] at hf
      rcases hf with h | h <;> subst h <;> rfl
    | parsed ws =>
      intro f hf
      rw [loadWorkspaceState_parsed_eq_spec] at hf
      simp only [reseedFilesSpec, List.mem_append] at hf
      rcases hf with hf | hf
      · exact List.of_mem_filter hf
      · have hmem := List.mem_of_mem_filter hf
        simp only [defaultFiles, List.mem_cons, List.mem_singleton,
          List.not_mem_nil, or_false] at hmem
        rcases hmem with h | h <;> subst h <;> rfl

lemma reseedFoldersSpec_present (folders : List WorkspaceFolder) (now : Int)
    (fid : String) (hid : fid = DEFAULT_CORE_FOLDER_ID ∨
      fid = DEFAULT_READINGS_FOLDER_ID ∨ fid = DEFAULT_SKETCHES_FOLDER_ID) :
    ∃ f ∈ reseedFoldersSpec folders now, f.id = fid := by
  by_cases h : folders.any (fun f => f.id == fid) = true
  · obtain ⟨f, hmem, hfid⟩ := List.any_eq_true.mp h
    exact ⟨f, List.mem_append_left _ hmem, beq_iff_eq.mp hfid⟩
  · have hd : (⟨fid, "", none, now⟩ : WorkspaceFolder).id = fid := rfl
    rcases hid with h1 | h1 | h1 <;> subst h1
    · refine ⟨⟨DEFAULT_CORE_FOLDER_ID, "Core Workspaces", none, now⟩,
        List.mem_append_right _ (List.mem_filter.mpr ⟨by simp [defaultFolders],
          ?_⟩), rfl⟩
      simpa using h
    · refine ⟨⟨DEFAULT_READINGS_FOLDER_ID, "Readings", none, now⟩,
        List.mem_append_right _ (List.mem_filter.mpr ⟨by simp [defaultFolders],
          ?_⟩), rfl⟩
      simpa using h
    · refine ⟨⟨DEFAULT_SKETCHES_FOLDER_ID, "Sketches", none, now⟩,
        List.mem_append_right _ (List.mem_filter.mpr ⟨by simp [defaultFolders],
          ?_⟩), rfl⟩
      simpa using h

lemma reseedFilesSpec_present (files : List WorkspaceFile) (now : Int)
    (fid : String) (hid : fid = "weekly-prep" ∨ fid = "question-space") :
    ∃ f ∈ reseedFilesSpec files now, f.id = fid := by
  by_cases h : files.any (fun f => f.id == fid) = true
  · obtain ⟨f, hmem, hfid⟩ := List.any_eq_true.mp h
    exact ⟨f, List.mem_append_left _ hmem, beq_iff_eq.mp hfid⟩
  · rcases hid with h1 | h1 <;> subst h1
    · refine ⟨⟨"weekly-prep", "Weekly Prep", some DEFAULT_CORE_FOLDER_ID,
        "canvas", now, "deliberatorium-weekly-prep", none⟩,
        List.mem_append_right _ (List.mem_filter.mpr ⟨by simp [defaultFiles],
          ?_⟩), rfl⟩
      simpa using h
    · refine ⟨⟨"question-space", "Question Space", some DEFAULT_CORE_FOLDER_ID,
        "canvas", now, "deliberatorium-question-space", none⟩,
        List.mem_append_right _ (List.mem_filter.mpr ⟨by simp [defaultFiles],
          ?_⟩), rfl⟩
      simpa using h

lemma loadWorkspaceState_present (blob : Option WorkspaceBlob) (now : Int) :
    (∃ f ∈ (loadWorkspaceState blob now).folders,
        f.id = DEFAULT_CORE_FOLDER_ID) ∧
      (∃ f ∈ (loadWorkspaceState blob now).folders,
        f.id = DEFAULT_READINGS_FOLDER_ID) ∧
      (∃ f ∈ (loadWorkspaceState blob now).folders,
        f.id = DEFAULT_SKETCHES_FOLDER_ID) ∧
      (∃ f ∈ (loadWorkspaceState blob now).files, f.id = "weekly-prep") ∧
      (∃ f ∈ (loadWorkspaceState blob now).files, f.id = "question-space") := by
  have hdef : (∃ f ∈ (createDefaultWorkspaceState now).folders,
        f.id = DEFAULT_CORE_FOLDER_ID) ∧
      (∃ f ∈ (createDefaultWorkspaceState now).folders,
        f.id = DEFAULT_READINGS_FOLDER_ID) ∧
      (∃ f ∈ (createDefaultWorkspaceState now).folders,
        f.id = DEFAULT_SKETCHES_FOLDER_ID) ∧
      (∃ f ∈ (createDefaultWorkspaceState now).files,
        f.id = "weekly-prep") ∧
      (∃ f ∈ (createDefaultWorkspaceState now).files,
        f.id = "question-space") := by
    refine ⟨⟨⟨DEFAULT_CORE_FOLDER_ID, "Core Workspaces", none, now⟩, ?_, rfl⟩,
      ⟨⟨DEFAULT_READINGS_FOLDER_ID, "Readings", none, now⟩, ?_, rfl⟩,
      ⟨⟨DEFAULT_SKETCHES_FOLDER_ID, "Sketches", none, now⟩, ?_, rfl⟩,
      ⟨⟨"weekly-prep", "Weekly Prep", some DEFAULT_CORE_FOLDER_ID, "canvas",
        now, "deliberatorium-weekly-prep", none⟩, ?_, rfl⟩,
      ⟨⟨"question-space", "Question Space", some DEFAULT_CORE_FOLDER_ID,
        "canvas", now, "deliberatorium-question-space", none⟩, ?_, rfl⟩⟩ <;>
      simp [createDefaultWorkspaceState, defaultFolders, defaultFiles]
  cases blob with
  | none => exact hdef
  | some b =>
    cases b with
    | malformed => exact hdef
    | parsed ws =>
      rw [loadWorkspaceState_parsed_eq_spec]
      exact ⟨reseedFoldersSpec_present _ _ _ (Or.inl rfl),
        reseedFoldersSpec_present _ _ _ (Or.inr (Or.inl rfl)),
        reseedFoldersSpec_present _ _ _ (Or.inr (Or.inr rfl)),
        reseedFilesSpec_present _ _ _ (Or.inl rfl),
        reseedFilesSpec_present _ _ _ (Or.inr rfl)⟩

lemma loadWorkspaceState_idem (blob : Option WorkspaceBlob) (now now' : Int) :
    loadWorkspaceState (some (.parsed (loadWorkspaceState blob now))) now' =
      loadWorkspaceState blob now := by
  obtain ⟨hc, hr, hs, hw, hq⟩ := loadWorkspaceState_present blob now
  rw [loadWorkspaceState_parsed_eq_spec,
    List.filter_eq_self.mpr (loadWorkspaceState_folderKept blob now),
    List.filter_eq_self.mpr (loadWorkspaceState_fileKept blob now)]
  have anyOf : ∀ (l : List WorkspaceFolder) (fid : String),
      (∃ f ∈ l, f.id = fid) → l.any (fun f => f.id == fid) = true := by
    intro l fid ⟨f, hmem, hfid⟩
    exact List.any_eq_true.mpr ⟨f, hmem, beq_iff_eq.mpr hfid⟩
  have anyOfF : ∀ (l : List WorkspaceFile) (fid : String),
      (∃ f ∈ l, f.id = fid) → l.any (fun f => f.id == fid) = true := by
    intro l fid ⟨f, hmem, hfid⟩
    exact List.any_eq_true.mpr ⟨f, hmem, beq_iff_eq.mpr hfid⟩
  have hfe : (defaultFolders now').filter
      (fun d => !((loadWorkspaceState blob now).folders.any
        (fun f => f.id == d.id))) = [] := by
    apply List.filter_eq_nil_iff.mpr
    intro d hd
    simp only [defaultFolders, List.mem_cons, List.mem_singleton,
      List.not_mem_nil, or_false] at hd
    rcases hd with h | h | h <;> subst h <;>
      simp [anyOf _ _ hc, anyOf _ _ hr, anyOf _ _ hs]
  have hfi : (defaultFiles now').filter
      (fun d => !((loadWorkspaceState blob now).files.any
        (fun f => f.id == d.id))) = [] := by
    apply List.filter_eq_nil_iff.mpr
    intro d hd
    simp only [defaultFiles, List.mem_cons, List.mem_singleton,
      List.not_mem_nil, or_false] at hd
    rcases hd with h | h <;> subst h <;>
      simp [anyOfF _ _ hw, anyOfF _ _ hq]
  rw [reseedFoldersSpec, reseedFilesSpec, hfe, hfi, List.append_nil,
    List.append_nil]

mutual

lemma isJsonLike_toSerializable :
    ∀ v : JSValue, isJsonLike (toSerializableJsonValue v) = true
  | .undef => rfl
  | .jsNull => rfl
  | .boolean _ => rfl
  | .number _ => rfl
  | .str _ => rfl
  | .exotic _ => rfl
  | .arr items => by
    simp only [toSerializableJsonValue, isJsonLike]
    exact listJsonLike_serializeList items
  | .obj entries => by
    simp only [toSerializableJsonValue, isJsonLike]
    exact entriesJsonLike_serializeEntries entries

lemma listJsonLike_serializeList :
    ∀ items : List JSValue, listJsonLike (serializeList items) = true
  | [] => rfl
  | v :: rest => by
    simp only [serializeList, listJsonLike]
    rw [isJsonLike_toSerializable v, listJsonLike_serializeList rest]
    rfl

lemma entriesJsonLike_serializeEntries :
    ∀ entries : List (String × JSValue),
      entriesJsonLike (serializeEntries entries) = true
  | [] => rfl
  | (k, v) :: rest => by
    by_cases h : isUndef v = true
    · simp only [serializeEntries, if_pos h]
      exact entriesJsonLike_serializeEntries rest
    · simp only [serializeEntries, if_neg h, entriesJsonLike]
      rw [isJsonLike_toSerializable v, entriesJsonLike_serializeEntries rest]
      rfl

end

/-- C6: `sanitizeShapeMeta` always returns a plain object; every value
reachable in the result is `null`, a boolean, a number, a string, an array,
or a plain object (so no `undefined`-valued keys and nothing
non-JSON-serializable survives); and any input that is not a plain object
yields the empty object. -/
theorem sanitizeShapeMeta_json (v : JSValue) :
    (∃ kvs, sanitizeShapeMeta v = .obj kvs) ∧
      isJsonLike (sanitizeShapeMeta v) = true ∧
      (isPlainObjectB v = false → sanitizeShapeMeta v = .obj []) := by
  cases v with
  | obj entries =>
    refine ⟨⟨serializeEntries entries, rfl⟩, ?_, fun h => by cases h⟩
    show isJsonLike (toSerializableJsonValue (.obj entries)) = true
    exact isJsonLike_toSerializable _
  | undef => exact ⟨⟨[], rfl⟩, rfl, fun _ => rfl⟩
  | jsNull => exact ⟨⟨[], rfl⟩, rfl, fun _ => rfl⟩
  | boolean b => exact ⟨⟨[], rfl⟩, rfl, fun _ => rfl⟩
  | number q => exact ⟨⟨[], rfl⟩, rfl, fun _ => rfl⟩
  | str s => exact ⟨⟨[], rfl⟩, rfl, fun _ => rfl⟩
  | arr items => exact ⟨⟨[], rfl⟩, rfl, fun _ => rfl⟩
  | exotic s => exact ⟨⟨[], rfl⟩, rfl, fun _ => rfl⟩

/-- C6 witness: a non-object input yields the empty object, and a plain
object holding an `undefined`-valued key and a `Date`-like exotic value
sanitizes to a JSON-like object. -/
theorem sanitizeShapeMeta_json_witness :
    sanitizeShapeMeta (.number 3) = .obj [] ∧
      isJsonLike (sanitizeShapeMeta
        (.obj [("a", .undef), ("b", .exotic "DateRep")])) = true :=
  ⟨(sanitizeShapeMeta_json (.number 3)).2.2 rfl,
    (sanitizeShapeMeta_json (.obj [("a", .undef), ("b", .exotic "DateRep")])).2.1⟩

/-- C8 witness: with a configured key and a successful upstream response
carrying token `tok`, the route answers `\x7b token: tok,
expiresInSeconds: 600 \x7d`; with no key it answers a 500 error. -/
theorem assemblyAiToken_responses_witness :
    assemblyAiToken ⟨some "key"⟩ ⟨true, some "tok", none⟩ =
        .tokenResp "tok" 600 ∧
      assemblyAiToken ⟨none⟩ ⟨true, some "tok", none⟩ =
        .errorResp 500 "AssemblyAI key is not configured." :=
  ⟨((assemblyAiToken_responses ⟨some "key"⟩ ⟨true, some "tok", none⟩).2.2.2
      (by simp)).2 "tok" rfl rfl (by simp),
    (assemblyAiToken_responses ⟨none⟩ ⟨true, some "tok", none⟩).1
      (Or.inl rfl)⟩

/-- C4: the claim that every parsed entry is kept fails: a stored blob with
the required arrays whose only folder has a non-empty id `x` but an empty
name is dropped by the truthiness filter, so no folder with id `x` appears
in the loaded state. -/
theorem loadWorkspaceState_drops_filtered_entry :
    ¬ ∃ f ∈ (loadWorkspaceState
        (some (.parsed ⟨[⟨"x", "", none, 0⟩], []⟩)) 0).folders,
      f.id = "x" := by
  decide

/-- C4 (amended): every loaded workspace contains the three default folders
and the two seed canvas files; an absent or malformed blob (unparseable or
missing either required array) loads as exactly the hard-coded default
tree; a parsed blob keeps exactly the entries whose required string fields
are non-empty (id/name for folders, id/name/canvasKey for files), appending
each missing default after them; and re-loading a loaded state changes
nothing (idempotent re-seeding). -/
theorem loadWorkspaceState_reseeds (blob : Option WorkspaceBlob)
    (now nowR : Int) :
    ((∃ f ∈ (loadWorkspaceState blob now).folders,
        f.id = DEFAULT_CORE_FOLDER_ID) ∧
      (∃ f ∈ (loadWorkspaceState blob now).folders,
        f.id = DEFAULT_READINGS_FOLDER_ID) ∧
      (∃ f ∈ (loadWorkspaceState blob now).folders,
        f.id = DEFAULT_SKETCHES_FOLDER_ID) ∧
      (∃ f ∈ (loadWorkspaceState blob now).files, f.id = "weekly-prep") ∧
      (∃ f ∈ (loadWorkspaceState blob now).files, f.id = "question-space")) ∧
      loadWorkspaceState none now = createDefaultWorkspaceState now ∧
      loadWorkspaceState (some .malformed) now =
        createDefaultWorkspaceState now ∧
      (∀ ws, loadWorkspaceState (some (.parsed ws)) now =
        ⟨reseedFoldersSpec (ws.folders.filter folderKept) now,
          reseedFilesSpec (ws.files.filter fileKept) now⟩) ∧
      loadWorkspaceState (some (.parsed (loadWorkspaceState blob now))) nowR =
        loadWorkspaceState blob now :=
  ⟨loadWorkspaceState_present blob now, rfl, rfl,
    fun ws => loadWorkspaceState_parsed_eq_spec ws now,
    loadWorkspaceState_idem blob now nowR⟩

/-- C4 witness: an absent blob loads as the default tree, and re-loading
the state loaded from a blob holding only an invalid-named folder is a
fixed point. -/
theorem loadWorkspaceState_reseeds_witness :
    loadWorkspaceState none 5 = createDefaultWorkspaceState 5 ∧
      loadWorkspaceState (some (.parsed (loadWorkspaceState
        (some (.parsed ⟨[⟨"x", "", none, 0⟩], []⟩)) 0))) 7 =
        loadWorkspaceState (some (.parsed ⟨[⟨"x", "", none, 0⟩], []⟩)) 0 :=
  ⟨(loadWorkspaceState_reseeds none 5 5).2.1,
    (loadWorkspaceState_reseeds
      (some (.parsed ⟨[⟨"x", "", none, 0⟩], []⟩)) 0 7).2.2.2.2⟩

end DeliberatoriumAgent
